import Mathlib

/-!
# Verification of the hwaf rule-matching service core

A shallow embedding of `main.go` of the hwaf service: the rule-table loader
(`buildScratch`), the global mutable state it populates (`RegexMap`, `Db`,
`Scratch`), the per-request match collector (`eventHandler`) and the
request pipeline (`requestHandler`), plus a transition system for the
lock discipline of concurrent request handlers.

Go strings that the code inspects character by character are embedded as
`List Char` (named `GoStr`); opaque strings (payload text, error messages,
the scanned input) stay `String`.  The external hyperscan engine is kept
abstract: compilation, workspace allocation and scanning are oracle
parameters, exactly as the spec treats the engine as an external
collaborator.
-/

/-- Go string embedded as a character list, so that the tokenizing done by
`buildScratch` (split on tab, trim, atoi) is kernel-computable. -/
abbrev GoStr := List Char

/-- Embedding of `strings.Split(line, "\t")`: split at every tab, keeping
empty fields; the empty string yields one empty field. -/
def splitOnTab : GoStr → List GoStr
  | [] => [[]]
  | c :: rest =>
    if c = '\t' then [] :: splitOnTab rest
    else
      match splitOnTab rest with
      | [] => [[c]]
      | f :: fs => (c :: f) :: fs

/-- Embedding of `strings.TrimSpace`: drop leading and trailing whitespace. -/
def trimSpace (s : GoStr) : GoStr :=
  ((s.dropWhile Char.isWhitespace).reverse.dropWhile Char.isWhitespace).reverse

/-- Embedding of `strings.HasPrefix(s, "#")`. -/
def startsWithHash : GoStr → Bool
  | [] => false
  | c :: _ => c = '#'

/-- Digit accumulator for `goAtoi`: fails on the first non-digit. -/
def parseDigitsAux : GoStr → Nat → Option Nat
  | [], acc => some acc
  | c :: rest, acc =>
    if c.isDigit then parseDigitsAux rest (acc * 10 + (c.toNat - 48)) else none

/-- Embedding of `strconv.Atoi`: an optional sign followed by a non-empty
run of decimal digits; anything else is an error (`none`). -/
def goAtoi : GoStr → Option Int
  | [] => none
  | c :: rest =>
    if c = '+' then
      if rest.isEmpty then none else (parseDigitsAux rest 0).map Int.ofNat
    else if c = '-' then
      if rest.isEmpty then none
      else (parseDigitsAux rest 0).map (fun n => -(Int.ofNat n))
    else (parseDigitsAux (c :: rest) 0).map Int.ofNat

/-- Embedding of `type RegexLine struct` (main.go:57-60). -/
structure RegexLine where
  Expr : GoStr
  Data : GoStr
deriving DecidableEq, Repr

/-- Embedding of `hyperscan.Pattern` as `buildScratch` constructs it (main.go:169):
expression text, the shared compile flags, and the rule id. -/
structure HsPattern where
  Expression : GoStr
  Flags : Nat
  Id : Int
deriving DecidableEq, Repr

/-- The process-wide mutable globals written by `buildScratch`
(main.go:35-37): the `RegexMap` rule-metadata map (a Go map, embedded as a
function to `Option`), the compiled database `Db`, and the scratch
workspace `Scratch.s`.  The opaque engine objects are identified by `Nat`
handles. -/
structure GlobalState where
  RegexMap : Int → Option RegexLine
  Db : Option Nat
  ScratchS : Option Nat

/-- The globals as they stand when `preRunE` calls `buildScratch`
(main.go:113): a freshly made empty map, nil database, nil scratch. -/
def initialGlobal : GlobalState :=
  { RegexMap := fun _ => none, Db := none, ScratchS := none }

/-- Go map assignment `RegexMap[id] = rl`. -/
def mapSet (m : Int → Option RegexLine) (id : Int) (rl : RegexLine) :
    Int → Option RegexLine :=
  fun k => if k = id then some rl else m k

/-- The line loop of `buildScratch` (main.go:140-172), carrying the
accumulated pattern list and the global state it mutates in place.
Per line: skip if the trimmed line starts with `#`; split on tab and skip
if fewer than 3 fields; parse field 0 as the id, aborting the whole load
with `"Atoi error."` on failure; otherwise append the pattern and write
the metadata into the process-wide `RegexMap`. -/
def loadLoop (flags : Nat) :
    List GoStr → List HsPattern → GlobalState →
    List HsPattern × GlobalState × Option String
  | [], patterns, g => (patterns, g, none)
  | line :: rest, patterns, g =>
    if startsWithHash (trimSpace line) then loadLoop flags rest patterns g
    else
      let s := splitOnTab line
      if s.length < 3 then loadLoop flags rest patterns g
      else
        match goAtoi (s.headD []) with
        | none => (patterns, g, some "Atoi error.")
        | some id =>
          let expr := s.getD 1 []
          let data := s.getD 2 []
          let pattern : HsPattern := { Expression := expr, Flags := flags, Id := id }
          loadLoop flags rest (patterns ++ [pattern])
            { g with RegexMap := mapSet g.RegexMap id { Expr := expr, Data := data } }

/-- Embedding of `buildScratch` (main.go:122-195).  The file is given as
its list of lines (`os.Open` succeeded); `parseFlag` is the result of
`hyperscan.ParseCompileFlag(Flag)`; `compile` and `alloc` are the external
engine's `NewBlockDatabase` and `NewScratch` (on error the Go bindings
return a nil object, hence `Except`); `scanRdErr` is `scanner.Err()`,
checked last as in the source.  Note that, as in the source, `Db = db` is
executed before the compile error check, and `RegexMap` is written during
the loop, so a failed load still leaves its earlier writes behind. -/
def buildScratch (compile : List HsPattern → Except String Nat)
    (alloc : Nat → Except String Nat) (parseFlag : Except String Nat)
    (scanRdErr : Option String) (lines : List GoStr) (g : GlobalState) :
    GlobalState × Option String :=
  match parseFlag with
  | .error e => (g, some e)
  | .ok flags =>
    match loadLoop flags lines [] g with
    | (_, g1, some e) => (g1, some e)
    | (patterns, g1, none) =>
      if patterns.length ≤ 0 then (g1, some "Empty regex")
      else
        match compile patterns with
        | .error e => ({ g1 with Db := none }, some e)
        | .ok db =>
          let g2 := { g1 with Db := some db }
          match alloc db with
          | .error e => (g2, some e)
          | .ok scr =>
            match scanRdErr with
            | some e => ({ g2 with ScratchS := some scr }, some e)
            | none => ({ g2 with ScratchS := some scr }, none)

/-- Embedding of `type MatchResp struct` (main.go:48-55): one collected match, carrying
the resolved rule metadata in `RegexLinev`. -/
structure MatchResp where
  Id : Int
  From : Int
  To : Int
  Flags : Int
  Context : String
  RegexLinev : RegexLine
deriving DecidableEq, Repr

/-- Embedding of `type Response struct` (main.go:41-45).  `Data` is a Go interface
whose zero value is nil: `none` until the handler assigns the match list. -/
structure Response where
  Errno : Int
  Msg : String
  Data : Option (List MatchResp)
deriving DecidableEq, Repr

/-- One raw match reported by the engine to the callback:
`(id uint, from, to uint64, flags uint)`. -/
structure RawEvent where
  id : Nat
  fromOff : Nat
  toOff : Nat
  flags : Nat
deriving DecidableEq, Repr

/-- The match callback `eventHandler` closed over in `requestHandler`
(main.go:221-230): look the id up in `RegexMap` (substituting the zero
`RegexLine` when absent), append one `MatchResp` to the request-local
list, and return nil (`none`), the continue-scanning signal. -/
def eventHandler (regexMap : Int → Option RegexLine) (input : String)
    (acc : List MatchResp) (ev : RawEvent) : List MatchResp × Option String :=
  let regexLine :=
    match regexMap (Int.ofNat ev.id) with
    | some rl => rl
    | none => { Expr := [], Data := [] }
  (acc ++ [{ Id := Int.ofNat ev.id, From := Int.ofNat ev.fromOff,
             To := Int.ofNat ev.toOff, Flags := Int.ofNat ev.flags,
             Context := input, RegexLinev := regexLine }], none)

/-- What one callback invocation adds: the raw event enriched with the
metadata resolved through the map (empty metadata on a miss). -/
def resolveEvent (regexMap : Int → Option RegexLine) (input : String)
    (ev : RawEvent) : MatchResp :=
  { Id := Int.ofNat ev.id, From := Int.ofNat ev.fromOff,
    To := Int.ofNat ev.toOff, Flags := Int.ofNat ev.flags,
    Context := input,
    RegexLinev := (regexMap (Int.ofNat ev.id)).getD { Expr := [], Data := [] } }

/-- The engine's callback-delivery loop inside `Db.Scan`: deliver each
reported event to the handler while it signals continue; a non-`none`
handler result would terminate the scan early with that error, otherwise
the engine's own verdict `engineErr` is returned. -/
def runScan (handler : List MatchResp → RawEvent → List MatchResp × Option String)
    (events : List RawEvent) (engineErr : Option String)
    (acc : List MatchResp) : List MatchResp × Option String :=
  match events with
  | [] => (acc, engineErr)
  | ev :: rest =>
    let r := handler acc ev
    match r.2 with
    | none => runScan handler rest engineErr r.1
    | some e => (r.1, some e)

/-- Observable workspace-lock actions of one `requestHandler` run:
`Scratch.Lock()` (main.go:233), the `Db.Scan` call (main.go:234),
`Scratch.Unlock()` (main.go:249). -/
inductive TraceEv where
  | lock
  | scanCall
  | unlock
deriving DecidableEq, Repr

/-- Embedding of `requestHandler` (main.go:197-253).  `scanOracle` is the
abstract engine scan on the compiled database: for the given input, the
events it reports (in order) and its error verdict.  Returns the response
together with the trace of workspace-lock actions the handler performed.
The source is straight-line: it locks, scans, branches on the scan error
(`-2` with the engine text / `1` "no match" / `0` with the match list),
unlocks, and encodes the response. -/
def requestHandler (regexMap : Int → Option RegexLine)
    (scanOracle : String → List RawEvent × Option String) (input : String) :
    Response × List TraceEv :=
  let resp0 : Response := { Errno := 0, Msg := "", Data := none }
  let scanRes := scanOracle input
  let collected := runScan (eventHandler regexMap input) scanRes.1 scanRes.2 []
  let resp :=
    match collected.2 with
    | some err => { resp0 with Errno := -2, Msg := "Db.Scan error: " ++ err }
    | none =>
      if collected.1.length ≤ 0 then
        { resp0 with Errno := 1, Msg := "no match", Data := some collected.1 }
      else { resp0 with Data := some collected.1 }
  (resp, [TraceEv.lock, TraceEv.scanCall, TraceEv.unlock])

/-!
## Concurrency model

Each concurrent request runs the lock-protected section of
`requestHandler`: acquire `Scratch` (a `sync.RWMutex` taken in write
mode), run `Db.Scan`, release.  A thread is `idle` before `Lock()`,
`crit` while it holds the lock (the scan and the response branch), `done`
after `Unlock()`.
-/

/-- Program counter of one request-handler thread with respect to the
workspace lock. -/
inductive PC where
  | idle
  | crit
  | done
deriving DecidableEq, Repr

/-- Global state of `n` concurrent request handlers sharing the single
`Scratch` lock. -/
structure SysState where
  threads : List PC
  lockHeld : Bool
deriving DecidableEq, Repr

/-- Number of threads currently inside the lock-protected scan section. -/
def countCrit : List PC → Nat
  | [] => 0
  | PC.crit :: rest => countCrit rest + 1
  | _ :: rest => countCrit rest

/-- Interleaving semantics of the handlers' lock discipline:
`Scratch.Lock()` blocks until the lock is free, `Scratch.Unlock()`
releases it. -/
inductive HStep : SysState → SysState → Prop where
  | acquire (s : SysState) (i : Nat) (hpc : s.threads.get? i = some PC.idle)
      (hl : s.lockHeld = false) :
      HStep s { threads := s.threads.set i PC.crit, lockHeld := true }
  | release (s : SysState) (i : Nat) (hpc : s.threads.get? i = some PC.crit) :
      HStep s { threads := s.threads.set i PC.done, lockHeld := false }

/-- Initial state: `n` requests dispatched, none yet at the lock; the lock is free. -/
def initSys (n : Nat) : SysState :=
  { threads := List.replicate n PC.idle, lockHeld := false }

/-- States a system of `n` concurrent handlers can reach. -/
def SysReachable (n : Nat) (s : SysState) : Prop :=
  Relation.ReflTransGen HStep (initSys n) s

/-!
## Spec-side reference functions used to state the theorems
-/

/-- A line `buildScratch` skips non-fatally: a comment, or fewer than
three tab-separated fields. -/
def lineSkippable (line : GoStr) : Bool :=
  startsWithHash (trimSpace line) || (splitOnTab line).length < 3

/-- A well-formed rule line: not a comment, at least three fields, numeric
id. -/
def parseLine (line : GoStr) : Option (Int × RegexLine) :=
  if startsWithHash (trimSpace line) then none
  else
    let s := splitOnTab line
    if s.length < 3 then none
    else (goAtoi (s.headD [])).map
      (fun id => (id, { Expr := s.getD 1 [], Data := s.getD 2 [] }))

/-- A line is well formed when `parseLine` accepts it. -/
def lineWellformed (line : GoStr) : Bool :=
  (parseLine line).isSome

/-- The (id, metadata) pairs of the well-formed lines, in source order. -/
def parsedEntries (lines : List GoStr) : List (Int × RegexLine) :=
  lines.filterMap parseLine

/-- The pattern each well-formed line contributes. -/
def patternsOf (flags : Nat) (lines : List GoStr) : List HsPattern :=
  lines.filterMap (fun line =>
    (parseLine line).map (fun p => { Expression := p.2.Expr, Flags := flags, Id := p.1 }))

/-- Last-write-wins overlay of a run of map writes over a base map: the
value at `k` is the metadata of the last entry with id `k`, else the base. -/
def overlay (entries : List (Int × RegexLine)) (m : Int → Option RegexLine) :
    Int → Option RegexLine :=
  fun k =>
    match entries.reverse.find? (fun p => p.1 == k) with
    | some p => some p.2
    | none => m k

/-!
## Helper lemmas
-/

lemma eventHandler_eq (m : Int → Option RegexLine) (input : String)
    (acc : List MatchResp) (ev : RawEvent) :
    eventHandler m input acc ev = (acc ++ [resolveEvent m input ev], none) := by
  cases hm : m (Int.ofNat ev.id) with
  | none => simp only [eventHandler, resolveEvent, hm, Option.getD_none]
  | some rl => simp only [eventHandler, resolveEvent, hm, Option.getD_some]

lemma runScan_eventHandler (m : Int → Option RegexLine) (input : String)
    (events : List RawEvent) (engineErr : Option String) (acc : List MatchResp) :
    runScan (eventHandler m input) events engineErr acc =
      (acc ++ events.map (resolveEvent m input), engineErr) := by
  induction events generalizing acc with
  | nil => simp [runScan]
  | cons ev rest ih =>
    simp only [runScan, eventHandler_eq, ih, List.map_cons, List.append_assoc,
      List.singleton_append]

/-- C1 scratch check shape; the trace component of the handler is the
constant lock/scan/unlock sequence. -/
lemma requestHandler_trace (m : Int → Option RegexLine)
    (scanOracle : String → List RawEvent × Option String) (input : String) :
    (requestHandler m scanOracle input).2 =
      [TraceEv.lock, TraceEv.scanCall, TraceEv.unlock] := rfl

/-!
## Claim theorems: the request pipeline
-/

/-- C1: the query operation's status contract (main.go:199-251).  For
every map, scan oracle and input: when the engine reports an error `e`,
the response is errno `-2` with message `"Db.Scan error: " ++ e`
(containing the engine's error text) and no data; when the scan succeeds
with zero collected matches, errno is `1` with message `"no match"`; when
the scan succeeds with at least one match, errno is `0` and the data is
the ordered match list, each entry enriched with its resolved metadata
(`resolveEvent`). -/
theorem requestHandler_status_codes (m : Int → Option RegexLine)
    (scanOracle : String → List RawEvent × Option String) (input : String) :
    (requestHandler m scanOracle input).1 =
      match scanOracle input with
      | (_, some e) => { Errno := -2, Msg := "Db.Scan error: " ++ e, Data := none }
      | (evs, none) =>
        if evs.isEmpty then { Errno := 1, Msg := "no match", Data := some [] }
        else { Errno := 0, Msg := "",
               Data := some (evs.map (resolveEvent m input)) } := by
  rcases h : scanOracle input with ⟨evs, err⟩
  simp only [requestHandler, h, runScan_eventHandler, List.nil_append]
  cases err with
  | some e => rfl
  | none =>
    cases evs with
    | nil => rfl
    | cons ev rest => simp [List.isEmpty]

/-- C2 counterexample: on the empty input the handler does acquire the
workspace lock and does invoke `Db.Scan` (the trace records one `lock`
and one `scanCall`), and the returned errno is `1` ("no match"), not the
claimed `-1` bad-input status; no `-1` path exists in `requestHandler`
(main.go:197-253). -/
theorem requestHandler_empty_input_cex :
    (requestHandler (fun _ => none) (fun _ => ([], none)) "").1.Errno = 1 ∧
    (requestHandler (fun _ => none) (fun _ => ([], none)) "").1.Msg = "no match" ∧
    ((requestHandler (fun _ => none) (fun _ => ([], none)) "").1.Errno == -1) = false ∧
    (requestHandler (fun _ => none) (fun _ => ([], none)) "").2.count TraceEv.lock = 1 ∧
    (requestHandler (fun _ => none) (fun _ => ([], none)) "").2.count TraceEv.scanCall = 1 := by
  decide

/-- C2 amended: the empty input is not special-cased.  The handler
acquires the lock and invokes the scan for every input, the empty one
included, and when the scan of the empty input reports no matches and no
error the result is the ordinary "no match" status (errno 1); no bad-input
(-1) status is ever produced. -/
theorem requestHandler_empty_input_scans (m : Int → Option RegexLine)
    (scanOracle : String → List RawEvent × Option String) :
    (requestHandler m scanOracle "").2 =
      [TraceEv.lock, TraceEv.scanCall, TraceEv.unlock] ∧
    (requestHandler m (fun _ => ([], none)) "").1.Errno = 1 ∧
    (requestHandler m (fun _ => ([], none)) "").1.Msg = "no match" :=
  ⟨rfl, rfl, rfl⟩

/-- C3: every run of `requestHandler` performs exactly one lock
acquisition (main.go:233) and exactly one release (main.go:249), in that
order, whatever the scan outcome — scan error, zero matches, or one or
more matches; the scan oracle and input are universally quantified, so
every exit path is covered. -/
theorem requestHandler_lock_balanced (m : Int → Option RegexLine)
    (scanOracle : String → List RawEvent × Option String) (input : String) :
    (requestHandler m scanOracle input).2 =
      [TraceEv.lock, TraceEv.scanCall, TraceEv.unlock] ∧
    (requestHandler m scanOracle input).2.count TraceEv.lock = 1 ∧
    (requestHandler m scanOracle input).2.count TraceEv.unlock = 1 := by
  refine ⟨requestHandler_trace m scanOracle input, ?_, ?_⟩ <;>
    rw [requestHandler_trace] <;> rfl

/-- C9: each callback invocation appends exactly one match event to the
request-local list (preserving what was already collected), resolves the
rule id through the metadata map with the empty `RegexLine` substituted on
a miss (`Option.getD`), and returns `none` — the continue-scanning
signal — so the collector never terminates a scan early
(main.go:221-230). -/
theorem eventHandler_appends_and_continues (m : Int → Option RegexLine)
    (input : String) (acc : List MatchResp) (ev : RawEvent) :
    eventHandler m input acc ev = (acc ++ [resolveEvent m input ev], none) ∧
    (eventHandler m input acc ev).1.length = acc.length + 1 ∧
    (resolveEvent m input ev).RegexLinev =
      (m (Int.ofNat ev.id)).getD { Expr := [], Data := [] } := by
  refine ⟨eventHandler_eq m input acc ev, ?_, rfl⟩
  rw [eventHandler_eq]
  simp

/-- C10: when the engine reports a scan error, the response carries no
data at all (`Data` stays the nil `interface{}`): the events already
delivered to the callback are discarded, for any list of collected
events `evs` (main.go:234-247). -/
theorem requestHandler_scan_error_discards_matches (m : Int → Option RegexLine)
    (evs : List RawEvent) (e : String) (input : String) :
    (requestHandler m (fun _ => (evs, some e)) input).1.Data = none ∧
    (requestHandler m (fun _ => (evs, some e)) input).1.Errno = -2 ∧
    (requestHandler m (fun _ => (evs, some e)) input).1.Msg =
      "Db.Scan error: " ++ e := by
  simp [requestHandler, runScan_eventHandler]

/-!
## Helper lemmas: the rule-table loader
-/

lemma loadLoop_Db (flags : Nat) :
    ∀ (lines : List GoStr) (patterns : List HsPattern) (g : GlobalState),
    (loadLoop flags lines patterns g).2.1.Db = g.Db := by
  intro lines
  induction lines with
  | nil => intro patterns g; rfl
  | cons line rest ih =>
    intro patterns g
    simp only [loadLoop]
    split
    · exact ih _ _
    · split
      · exact ih _ _
      · split
        · rfl
        · exact ih _ _

lemma loadLoop_ScratchS (flags : Nat) :
    ∀ (lines : List GoStr) (patterns : List HsPattern) (g : GlobalState),
    (loadLoop flags lines patterns g).2.1.ScratchS = g.ScratchS := by
  intro lines
  induction lines with
  | nil => intro patterns g; rfl
  | cons line rest ih =>
    intro patterns g
    simp only [loadLoop]
    split
    · exact ih _ _
    · split
      · exact ih _ _
      · split
        · rfl
        · exact ih _ _

lemma loadLoop_all_skippable (flags : Nat) :
    ∀ (lines : List GoStr), (∀ l ∈ lines, lineSkippable l = true) →
    ∀ (patterns : List HsPattern) (g : GlobalState),
    loadLoop flags lines patterns g = (patterns, g, none) := by
  intro lines
  induction lines with
  | nil => intro _ patterns g; rfl
  | cons line rest ih =>
    intro h patterns g
    have hline : lineSkippable line = true := h line (by simp)
    have hrest : ∀ l ∈ rest, lineSkippable l = true := fun l hl => h l (by simp [hl])
    simp only [loadLoop]
    by_cases hc : startsWithHash (trimSpace line) = true
    · rw [if_pos hc]; exact ih hrest patterns g
    · have hlen : (splitOnTab line).length < 3 := by
        unfold lineSkippable at hline
        rw [Bool.or_eq_true] at hline
        cases hline with
        | inl h1 => exact absurd h1 hc
        | inr h2 => exact of_decide_eq_true h2
      rw [if_neg hc, if_pos hlen]
      exact ih hrest patterns g

lemma overlay_cons (id : Int) (rl : RegexLine) (es : List (Int × RegexLine))
    (m : Int → Option RegexLine) (k : Int) :
    overlay ((id, rl) :: es) m k = overlay es (mapSet m id rl) k := by
  unfold overlay mapSet
  rw [List.reverse_cons, List.find?_append]
  cases h : es.reverse.find? (fun p => p.1 == k) with
  | some q => simp
  | none =>
    simp only [Option.none_or]
    by_cases hk : id = k
    · subst hk
      simp [List.find?]
    · have hbeq : (id == k) = false := beq_eq_false_iff_ne.mpr hk
      have hk' : ¬(k = id) := fun h1 => hk h1.symm
      simp [List.find?, hbeq, hk']

lemma overlay_empty_base (es : List (Int × RegexLine)) (k : Int) :
    overlay es (fun _ => none) k =
      (es.reverse.find? (fun p => p.1 == k)).map (fun p => p.2) := by
  unfold overlay
  cases h : es.reverse.find? (fun p => p.1 == k) <;> simp

lemma patternsOf_length_pos (flags : Nat) (lines : List GoStr) (l : GoStr)
    (hl : l ∈ lines) (hw : lineWellformed l = true) :
    0 < (patternsOf flags lines).length := by
  obtain ⟨p, hp⟩ := Option.isSome_iff_exists.mp hw
  have hmem : { Expression := p.2.Expr, Flags := flags, Id := p.1 } ∈
      patternsOf flags lines :=
    List.mem_filterMap.mpr ⟨l, hl, by rw [hp]; rfl⟩
  exact List.length_pos.mpr (List.ne_nil_of_mem hmem)

lemma loadLoop_clean (flags : Nat) :
    ∀ (lines : List GoStr),
      (∀ l ∈ lines, lineSkippable l = true ∨ lineWellformed l = true) →
    ∀ (patterns : List HsPattern) (g : GlobalState),
      (loadLoop flags lines patterns g).2.2 = none ∧
      (loadLoop flags lines patterns g).1 = patterns ++ patternsOf flags lines ∧
      ∀ k, (loadLoop flags lines patterns g).2.1.RegexMap k =
        overlay (parsedEntries lines) g.RegexMap k := by
  intro lines
  induction lines with
  | nil =>
    intro _ patterns g
    refine ⟨rfl, by simp [loadLoop, patternsOf], ?_⟩
    intro k
    simp [loadLoop, parsedEntries, overlay]
  | cons line rest ih =>
    intro h patterns g
    have hline := h line (by simp)
    have hrest : ∀ l ∈ rest, lineSkippable l = true ∨ lineWellformed l = true :=
      fun l hl => h l (by simp [hl])
    by_cases hc : startsWithHash (trimSpace line) = true
    · have e1 : loadLoop flags (line :: rest) patterns g =
          loadLoop flags rest patterns g := by
        simp only [loadLoop]; rw [if_pos hc]
      have e2 : parseLine line = none := by
        unfold parseLine; rw [if_pos hc]
      have e3 : patternsOf flags (line :: rest) = patternsOf flags rest := by
        simp [patternsOf, e2]
      have e4 : parsedEntries (line :: rest) = parsedEntries rest := by
        simp [parsedEntries, e2]
      rw [e1, e3, e4]
      exact ih hrest patterns g
    · by_cases hlen : (splitOnTab line).length < 3
      · have e1 : loadLoop flags (line :: rest) patterns g =
            loadLoop flags rest patterns g := by
          simp only [loadLoop]; rw [if_neg hc, if_pos hlen]
        have e2 : parseLine line = none := by
          unfold parseLine; rw [if_neg hc, if_pos hlen]
        have e3 : patternsOf flags (line :: rest) = patternsOf flags rest := by
          simp [patternsOf, e2]
        have e4 : parsedEntries (line :: rest) = parsedEntries rest := by
          simp [parsedEntries, e2]
        rw [e1, e3, e4]
        exact ih hrest patterns g
      · have hwf : lineWellformed line = true := by
          cases hline with
          | inl hsk =>
            exfalso
            unfold lineSkippable at hsk
            rw [Bool.or_eq_true] at hsk
            cases hsk with
            | inl h1 => exact hc h1
            | inr h2 => exact hlen (of_decide_eq_true h2)
          | inr hw => exact hw
        obtain ⟨id, hid⟩ : ∃ id, goAtoi ((splitOnTab line).headD []) = some id := by
          unfold lineWellformed parseLine at hwf
          rw [if_neg hc, if_neg hlen] at hwf
          cases ha : goAtoi ((splitOnTab line).headD []) with
          | none => rw [ha] at hwf; simp at hwf
          | some id => exact ⟨id, rfl⟩
        have e1 : loadLoop flags (line :: rest) patterns g =
            loadLoop flags rest
              (patterns ++ [HsPattern.mk ((splitOnTab line).getD 1 []) flags id])
              (GlobalState.mk
                (mapSet g.RegexMap id
                  (RegexLine.mk ((splitOnTab line).getD 1 [])
                    ((splitOnTab line).getD 2 [])))
                g.Db g.ScratchS) := by
          simp only [loadLoop]
          rw [if_neg hc, if_neg hlen, hid]
        have e2 : parseLine line =
            some (id, RegexLine.mk ((splitOnTab line).getD 1 [])
              ((splitOnTab line).getD 2 [])) := by
          unfold parseLine
          rw [if_neg hc, if_neg hlen, hid]
          rfl
        have e3 : patternsOf flags (line :: rest) =
            HsPattern.mk ((splitOnTab line).getD 1 []) flags id ::
              patternsOf flags rest := by
          simp [patternsOf, e2]
        have e4 : parsedEntries (line :: rest) =
            (id, RegexLine.mk ((splitOnTab line).getD 1 [])
              ((splitOnTab line).getD 2 [])) :: parsedEntries rest := by
          simp [parsedEntries, e2]
        obtain ⟨ha, hb, hm⟩ := ih hrest
          (patterns ++ [HsPattern.mk ((splitOnTab line).getD 1 []) flags id])
          (GlobalState.mk
            (mapSet g.RegexMap id
              (RegexLine.mk ((splitOnTab line).getD 1 [])
                ((splitOnTab line).getD 2 [])))
            g.Db g.ScratchS)
        refine ⟨by rw [e1]; exact ha, ?_, ?_⟩
        · rw [e1, hb, e3]
          simp
        · intro k
          rw [e1, e4, overlay_cons]
          exact hm k

lemma buildScratch_ok (compile : List HsPattern → Except String Nat)
    (alloc : Nat → Except String Nat) (flags : Nat) (lines : List GoStr)
    (g : GlobalState) (pats : List HsPattern) (g1 : GlobalState)
    (hL : loadLoop flags lines [] g = (pats, g1, none))
    (hpos : 0 < pats.length) (db : Nat) (hdb : compile pats = .ok db)
    (scr : Nat) (hscr : alloc db = .ok scr) :
    buildScratch compile alloc (.ok flags) none lines g =
      (GlobalState.mk g1.RegexMap (some db) (some scr), none) := by
  have hne : ¬pats.length ≤ 0 := by omega
  simp only [buildScratch, hL]
  rw [if_neg hne]
  simp [hdb, hscr]

/-!
## Claim theorems: the rule-table loader
-/

/-- C5: when pattern compilation fails, the load fails (returns an error,
which `preRunE` propagates, aborting startup) and the process-visible
database stays unset: the source assigns `Db = db` before the error check
(main.go:179-183), and the failed `NewBlockDatabase` yields a nil
database, so `Db` is `none` afterwards whether the loop, the empty-set
check or the compilation itself stopped the load. -/
theorem buildScratch_compile_failure_db_unset (e : String)
    (alloc : Nat → Except String Nat) (flags : Nat) (scanRdErr : Option String)
    (lines : List GoStr) (g : GlobalState) (hdb : g.Db = none) :
    ((buildScratch (fun _ => .error e) alloc (.ok flags) scanRdErr lines g).2).isSome
      = true ∧
    (buildScratch (fun _ => .error e) alloc (.ok flags) scanRdErr lines g).1.Db
      = none := by
  have hDb := loadLoop_Db flags lines [] g
  rcases hL : loadLoop flags lines [] g with ⟨pats, g1, err⟩
  rw [hL] at hDb
  cases err with
  | some e1 =>
    simp only [buildScratch, hL]
    exact ⟨rfl, hDb.trans hdb⟩
  | none =>
    by_cases h0 : pats.length ≤ 0
    · simp only [buildScratch, hL]
      rw [if_pos h0]
      exact ⟨rfl, hDb.trans hdb⟩
    · simp only [buildScratch, hL]
      rw [if_neg h0]
      exact ⟨rfl, rfl⟩

/-- Witness for C5 at a concrete failing compilation: one good rule line,
the engine rejects the pattern set, the load reports the error and `Db`
is still unset. -/
theorem buildScratch_compile_failure_db_unset_witness :
    initialGlobal.Db = none ∧
    ((buildScratch (fun _ => .error "compile failed") (fun d => .ok d) (.ok 0)
        none ["1\ta\tb".data] initialGlobal).2).isSome = true ∧
    (buildScratch (fun _ => .error "compile failed") (fun d => .ok d) (.ok 0)
        none ["1\ta\tb".data] initialGlobal).1.Db = none :=
  ⟨rfl,
   (buildScratch_compile_failure_db_unset "compile failed" (fun d => .ok d) 0
     none ["1\ta\tb".data] initialGlobal rfl).1,
   (buildScratch_compile_failure_db_unset "compile failed" (fun d => .ok d) 0
     none ["1\ta\tb".data] initialGlobal rfl).2⟩

/-- C6 counterexample: loading is not side-effect free.  On the source
`["1\ta\tb", "x\tc\td"]` the load fails (`"Atoi error."` on the second
line), yet the process-wide `RegexMap` — empty before the load — now
contains the first line's entry: the loop writes `RegexMap[id]` directly
(main.go:171), so a failed load does not leave process-wide state
unchanged. -/
theorem buildScratch_failed_load_mutates_cex :
    (buildScratch (fun _ => .ok 7) (fun _ => .ok 9) (.ok 0) none
        ["1\ta\tb".data, "x\tc\td".data] initialGlobal).2 = some "Atoi error." ∧
    (buildScratch (fun _ => .ok 7) (fun _ => .ok 9) (.ok 0) none
        ["1\ta\tb".data, "x\tc\td".data] initialGlobal).1.RegexMap 1 =
      some (RegexLine.mk "a".data "b".data) ∧
    initialGlobal.RegexMap 1 = none := by
  exact ⟨by decide, by decide, rfl⟩

/-- C6 amended: `buildScratch` mutates process-wide state directly as it
runs — each accepted line is written into the global `RegexMap`
immediately — so a load that fails on a later line (here: an id-parse
failure) returns with the earlier entries already installed; `Db` and
`Scratch.s` are untouched by a loop-stage failure.  This holds for every
initial state, every tail of further lines and every engine oracle. -/
theorem buildScratch_mutates_state_directly
    (compile : List HsPattern → Except String Nat)
    (alloc : Nat → Except String Nat) (flags : Nat) (scanRdErr : Option String)
    (rest : List GoStr) (g : GlobalState) :
    (buildScratch compile alloc (.ok flags) scanRdErr
        ("1\ta\tb".data :: "x\tc\td".data :: rest) g).2 = some "Atoi error." ∧
    (buildScratch compile alloc (.ok flags) scanRdErr
        ("1\ta\tb".data :: "x\tc\td".data :: rest) g).1.RegexMap 1 =
      some (RegexLine.mk "a".data "b".data) ∧
    (buildScratch compile alloc (.ok flags) scanRdErr
        ("1\ta\tb".data :: "x\tc\td".data :: rest) g).1.Db = g.Db ∧
    (buildScratch compile alloc (.ok flags) scanRdErr
        ("1\ta\tb".data :: "x\tc\td".data :: rest) g).1.ScratchS = g.ScratchS :=
  ⟨rfl, rfl, rfl, rfl⟩

/-- C7 counterexample: a rule source containing a well-formed line
(`"1\ta\tb"`) on which loading nevertheless fails: the other line
`"x\tc\td"` has three fields but a non-numeric id, and the id-parse
failure is fatal (main.go:159-162), so the presence of one well-formed
line does not make the load succeed. -/
theorem buildScratch_wellformed_not_sufficient_cex :
    lineWellformed "1\ta\tb".data = true ∧
    (buildScratch (fun _ => .ok 7) (fun _ => .ok 9) (.ok 0) none
        ["1\ta\tb".data, "x\tc\td".data] initialGlobal).2 = some "Atoi error." := by
  exact ⟨by decide, by decide⟩

/-- C7 amended: for a rule source with at least one well-formed line in
which every line is either skippable (comment / fewer than three fields)
or well formed (so no fatal id-parse failure), and with the engine's
compilation and workspace allocation succeeding and the source readable
to the end, loading succeeds; the skippable lines are dropped non-fatally
and the resulting metadata map has exactly the last-written entry for
each distinct well-formed id: looking up `k` finds the expression and
payload of the last well-formed line with id `k`, and nothing for any
other id. -/
theorem buildScratch_clean_load (dbOf : List HsPattern → Nat) (scrOf : Nat → Nat)
    (flags : Nat) (lines : List GoStr)
    (hok : ∀ l ∈ lines, lineSkippable l = true ∨ lineWellformed l = true)
    (l0 : GoStr) (hl0 : l0 ∈ lines) (hwf0 : lineWellformed l0 = true) :
    (buildScratch (fun ps => .ok (dbOf ps)) (fun d => .ok (scrOf d)) (.ok flags)
        none lines initialGlobal).2 = none ∧
    ∀ k, (buildScratch (fun ps => .ok (dbOf ps)) (fun d => .ok (scrOf d)) (.ok flags)
        none lines initialGlobal).1.RegexMap k =
      ((parsedEntries lines).reverse.find? (fun p => p.1 == k)).map
        (fun p => p.2) := by
  obtain ⟨ha, hb, hm⟩ := loadLoop_clean flags lines hok [] initialGlobal
  have hpos : 0 < (patternsOf flags lines).length :=
    patternsOf_length_pos flags lines l0 hl0 hwf0
  rcases hL : loadLoop flags lines [] initialGlobal with ⟨pats, g1, err⟩
  rw [hL] at ha hb hm
  simp only [List.nil_append] at ha hb hm
  have hL1 : loadLoop flags lines [] initialGlobal = (pats, g1, none) := by
    rw [hL, ha]
  have hB := buildScratch_ok (fun ps => .ok (dbOf ps)) (fun d => .ok (scrOf d))
    flags lines initialGlobal pats g1 hL1 (by rw [hb]; exact hpos)
    (dbOf pats) rfl (scrOf (dbOf pats)) rfl
  rw [hB]
  refine ⟨rfl, ?_⟩
  intro k
  have h5 := hm k
  simp only [initialGlobal] at h5
  rw [overlay_empty_base] at h5
  exact h5

/-- Witness for C7 (amended) on a concrete source: a comment, a short
line, a duplicated id (last wins) and a second id; the load succeeds, id 1
maps to the later line's metadata, id 3 is absent. -/
theorem buildScratch_clean_load_witness :
    (buildScratch (fun _ => Except.ok 7) (fun _ => Except.ok 9) (.ok 0) none
        ["# header".data, "1\ta\tb".data, "xy".data, "1\tc\td".data, "2\te\tf".data]
        initialGlobal).2 = none ∧
    (buildScratch (fun _ => Except.ok 7) (fun _ => Except.ok 9) (.ok 0) none
        ["# header".data, "1\ta\tb".data, "xy".data, "1\tc\td".data, "2\te\tf".data]
        initialGlobal).1.RegexMap 1 = some (RegexLine.mk "c".data "d".data) ∧
    (buildScratch (fun _ => Except.ok 7) (fun _ => Except.ok 9) (.ok 0) none
        ["# header".data, "1\ta\tb".data, "xy".data, "1\tc\td".data, "2\te\tf".data]
        initialGlobal).1.RegexMap 3 = none := by
  have h := buildScratch_clean_load (fun _ => 7) (fun _ => 9) 0
    ["# header".data, "1\ta\tb".data, "xy".data, "1\tc\td".data, "2\te\tf".data]
    (by decide) "1\ta\tb".data (by decide) (by decide)
  exact ⟨h.1, (h.2 1).trans (by decide), (h.2 3).trans (by decide)⟩

/-- C8: a rule source in which every line is skippable (a comment or
fewer than three fields — the empty source included) accumulates zero
rules, and the load fails with the empty-rule-set error (spelled
`"Empty regex"` in the source, main.go:174-176) instead of succeeding
with an empty database; the globals are left untouched. -/
theorem buildScratch_empty_rule_set (compile : List HsPattern → Except String Nat)
    (alloc : Nat → Except String Nat) (flags : Nat) (scanRdErr : Option String)
    (lines : List GoStr) (g : GlobalState)
    (hsk : ∀ l ∈ lines, lineSkippable l = true) :
    buildScratch compile alloc (.ok flags) scanRdErr lines g =
      (g, some "Empty regex") := by
  simp only [buildScratch, loadLoop_all_skippable flags lines hsk [] g]
  rfl

/-- Witness for C8: a comment line plus a one-field line; the load fails
with the empty-rule-set error. -/
theorem buildScratch_empty_rule_set_witness :
    lineSkippable "# only a comment".data = true ∧
    lineSkippable "ab".data = true ∧
    buildScratch (fun _ => Except.ok 7) (fun _ => Except.ok 9) (.ok 0) none
      ["# only a comment".data, "ab".data] initialGlobal =
      (initialGlobal, some "Empty regex") :=
  ⟨by decide, by decide,
   buildScratch_empty_rule_set (fun _ => Except.ok 7) (fun _ => Except.ok 9) 0 none
     ["# only a comment".data, "ab".data] initialGlobal (by decide)⟩

/-!
## Helper lemmas: the lock-discipline transition system
-/

lemma countCrit_set_crit (l : List PC) (i : Nat) (h : l.get? i = some PC.idle) :
    countCrit (l.set i PC.crit) = countCrit l + 1 := by
  induction l generalizing i with
  | nil => simp [List.get?] at h
  | cons a t ih =>
    cases i with
    | zero =>
      simp only [List.get?_cons_zero, Option.some.injEq] at h
      subst h
      simp [List.set, countCrit]
    | succ n =>
      simp only [List.get?_cons_succ] at h
      cases a <;> simp [List.set, countCrit, ih n h]

lemma countCrit_set_done (l : List PC) (i : Nat) (h : l.get? i = some PC.crit) :
    countCrit l = countCrit (l.set i PC.done) + 1 := by
  induction l generalizing i with
  | nil => simp [List.get?] at h
  | cons a t ih =>
    cases i with
    | zero =>
      simp only [List.get?_cons_zero, Option.some.injEq] at h
      subst h
      simp [List.set, countCrit]
    | succ n =>
      simp only [List.get?_cons_succ] at h
      cases a <;> simp [List.set, countCrit, ih n h]

lemma countCrit_pos (l : List PC) (i : Nat) (h : l.get? i = some PC.crit) :
    1 ≤ countCrit l := by
  induction l generalizing i with
  | nil => simp [List.get?] at h
  | cons a t ih =>
    cases i with
    | zero =>
      simp only [List.get?_cons_zero, Option.some.injEq] at h
      subst h
      simp [countCrit]
    | succ n =>
      simp only [List.get?_cons_succ] at h
      have h1 := ih n h
      cases a <;> simp [countCrit] <;> omega

lemma countCrit_replicate_idle (n : Nat) :
    countCrit (List.replicate n PC.idle) = 0 := by
  induction n with
  | zero => rfl
  | succ m ih => simpa [List.replicate, countCrit] using ih

/-- The inductive lock invariant: the number of threads inside the scan
section is one exactly when the lock is held, zero otherwise. -/
def SysInv (s : SysState) : Prop :=
  countCrit s.threads = if s.lockHeld then 1 else 0

lemma sysInv_init (n : Nat) : SysInv (initSys n) := by
  unfold SysInv initSys
  simp [countCrit_replicate_idle]

lemma sysInv_step {s s1 : SysState} (hstep : HStep s s1) (hinv : SysInv s) :
    SysInv s1 := by
  cases hstep with
  | acquire i hpc hl =>
    unfold SysInv at hinv ⊢
    rw [hl] at hinv
    simp only [if_false, Bool.false_eq_true] at hinv
    simp [countCrit_set_crit s.threads i hpc, hinv]
  | release i hpc =>
    unfold SysInv at hinv ⊢
    have hpos := countCrit_pos s.threads i hpc
    have hlock : s.lockHeld = true := by
      cases hL : s.lockHeld
      · rw [hL] at hinv; simp at hinv; omega
      · rfl
    rw [hlock] at hinv
    simp only [if_true] at hinv
    have hdone := countCrit_set_done s.threads i hpc
    simp only []
    simp
    omega

lemma sysInv_reachable (n : Nat) (s : SysState) (h : SysReachable n s) :
    SysInv s := by
  unfold SysReachable at h
  induction h with
  | refl => exact sysInv_init n
  | tail hsteps hstep ih => exact sysInv_step hstep ih

/-!
## Claim theorem: concurrency
-/

/-- C4: mutual exclusion of scans.  For any number `n` of concurrent
executions of `requestHandler`'s lock-protected section against the one
shared `Scratch` lock (main.go:20-23, 233-249), in every reachable state
at most one thread is between its acquire and its release — there are
never two outstanding acquisitions — and when the lock is free no thread
is inside the scan section, so each scan completes and releases before
the next scan begins. -/
theorem scan_mutual_exclusion (n : Nat) (s : SysState)
    (h : SysReachable n s) :
    countCrit s.threads ≤ 1 ∧ (s.lockHeld = false → countCrit s.threads = 0) := by
  have hinv := sysInv_reachable n s h
  unfold SysInv at hinv
  constructor
  · rw [hinv]; cases s.lockHeld <;> simp
  · intro hl; rw [hinv, hl]; simp

/-- Witness for C4: two concurrent handlers; after thread 0 acquires the
lock the state is reachable, and the mutual-exclusion bound holds there. -/
theorem scan_mutual_exclusion_witness :
    SysReachable 2 (SysState.mk [PC.crit, PC.idle] true) ∧
    countCrit (SysState.mk [PC.crit, PC.idle] true).threads ≤ 1 := by
  have hstep : HStep (initSys 2) (SysState.mk [PC.crit, PC.idle] true) :=
    HStep.acquire (initSys 2) 0 rfl rfl
  have hreach : SysReachable 2 (SysState.mk [PC.crit, PC.idle] true) :=
    Relation.ReflTransGen.single hstep
  exact ⟨hreach,
    (scan_mutual_exclusion 2 (SysState.mk [PC.crit, PC.idle] true) hreach).1⟩
